import Mathlib

/-!
Verification of the link-classification-and-URL-derivation core of the
Drive-link-to-export-link repository (src/src/LinkConverter.tsx).

Strings are modelled as `List Char`.  JavaScript `String.prototype.trim`,
`toLowerCase` (the inputs sniffed are ASCII; `Char.toLower` lowers exactly
the ASCII letters), `includes`, `encodeURIComponent` and the six regular
expressions of `extractGoogleFileId` are embedded as executable functions
below, each translated from the source file.
-/

namespace LinkConverter

/-- The characters removed by JavaScript `String.prototype.trim`
(WhiteSpace and LineTerminator code points). -/
def jsWhitespace (c : Char) : Bool :=
  let n := c.toNat
  n == 0x9 || n == 0xA || n == 0xB || n == 0xC || n == 0xD || n == 0x20 ||
  n == 0xA0 || n == 0x1680 || (0x2000 ≤ n && n ≤ 0x200A) ||
  n == 0x2028 || n == 0x2029 || n == 0x202F || n == 0x205F ||
  n == 0x3000 || n == 0xFEFF

/-- JavaScript `input.trim()`: drop whitespace from both ends. -/
def trimJS (s : List Char) : List Char :=
  ((s.dropWhile jsWhitespace).reverse.dropWhile jsWhitespace).reverse

/-- Test whether `pat` is an initial segment of `s`. -/
def startsWith : List Char → List Char → Bool
  | [], _ => true
  | _ :: _, [] => false
  | p :: ps, c :: cs => p == c && startsWith ps cs

/-- JavaScript `s.includes(pat)`: substring containment. -/
def containsSub (pat : List Char) : List Char → Bool
  | [] => startsWith pat []
  | c :: tl => startsWith pat (c :: tl) || containsSub pat tl

/-- The identifier character class `[a-zA-Z0-9_-]` of the source regexes. -/
def idChar (c : Char) : Bool :=
  let n := c.toNat
  (97 ≤ n && n ≤ 122) || (65 ≤ n && n ≤ 90) || (48 ≤ n && n ≤ 57) ||
  n == 95 || n == 45

/-- Greedy `([a-zA-Z0-9_-]+)` capture: the maximal leading run of id chars. -/
def takeIdRun : List Char → List Char
  | [] => []
  | c :: tl => if idChar c then c :: takeIdRun tl else []

/-- Leftmost match of a regex `<literal>([a-zA-Z0-9_-]+)`: scan start
positions left to right; at the first position where the literal matches
and at least one id char follows, return the maximal id-char run. -/
def findLitCapture (pre : List Char) : List Char → Option (List Char)
  | [] => none
  | c :: tl =>
    if startsWith pre (c :: tl) &&
        !(takeIdRun (List.drop pre.length (c :: tl))).isEmpty then
      some (takeIdRun (List.drop pre.length (c :: tl)))
    else findLitCapture pre tl

/-- Leftmost match of the regex `[?&]id=([a-zA-Z0-9_-]+)` (pattern 5 of
`extractGoogleFileId`). -/
def findP5 : List Char → Option (List Char)
  | [] => none
  | c :: tl =>
    if (c == '?' || c == '&') && startsWith ("id=".data) tl &&
        !(takeIdRun (List.drop 3 tl)).isEmpty then
      some (takeIdRun (List.drop 3 tl))
    else findP5 tl

/-- The ordered pattern array of `extractGoogleFileId`
(src/src/LinkConverter.tsx lines 111-118). -/
def googleIdPatterns : List (List Char → Option (List Char)) :=
  [ findLitCapture ("/file/d/".data)
  , findLitCapture ("/presentation/d/".data)
  , findLitCapture ("/document/d/".data)
  , findLitCapture ("/spreadsheets/d/".data)
  , findP5
  , findLitCapture ("/uc?id=".data) ]

/-- The `for (const p of patterns)` loop of `extractGoogleFileId`:
first pattern returning a (nonempty) capture wins. -/
def runPatterns : List (List Char → Option (List Char)) → List Char →
    Option (List Char)
  | [], _ => none
  | p :: rest, url =>
    match p url with
    | some cap => some cap
    | none => runPatterns rest url

/-- Source function `extractGoogleFileId` (src/src/LinkConverter.tsx lines 99-126). -/
def extractGoogleFileId (input : List Char) : Option (List Char) :=
  let url := trimJS input
  if url.isEmpty then none
  else runPatterns googleIdPatterns url

/-- Source function `isProbablyGoogleLink` (lines 128-131). -/
def isProbablyGoogleLink (input : List Char) : Bool :=
  let s := (trimJS input).map Char.toLower
  containsSub ("drive.google.com".data) s || containsSub ("docs.google.com".data) s

/-- Characters that JavaScript `encodeURIComponent` leaves unescaped:
`A-Z a-z 0-9 - _ . ! ~ * ( )` and the apostrophe (code 39). -/
def uriUnreserved (c : Char) : Bool :=
  let n := c.toNat
  (65 ≤ n && n ≤ 90) || (97 ≤ n && n ≤ 122) || (48 ≤ n && n ≤ 57) ||
  n == 45 || n == 95 || n == 46 || n == 33 || n == 126 || n == 42 ||
  n == 39 || n == 40 || n == 41

/-- UTF-8 encoding of one scalar value, as a list of byte values. -/
def utf8Bytes (c : Char) : List Nat :=
  let n := c.toNat
  if n < 0x80 then [n]
  else if n < 0x800 then [0xC0 + n / 64, 0x80 + n % 64]
  else if n < 0x10000 then
    [0xE0 + n / 4096, 0x80 + n / 64 % 64, 0x80 + n % 64]
  else
    [0xF0 + n / 262144, 0x80 + n / 4096 % 64, 0x80 + n / 64 % 64, 0x80 + n % 64]

/-- Uppercase hexadecimal digit, as produced by `encodeURIComponent`. -/
def hexDigit (n : Nat) : Char := ("0123456789ABCDEF".data).getD n '0'

/-- Percent-escape of one byte: `%XX` with uppercase hex. -/
def pctByte (b : Nat) : List Char := ['%', hexDigit (b / 16), hexDigit (b % 16)]

/-- JavaScript `encodeURIComponent`: unreserved characters pass through,
every other character becomes the percent-escapes of its UTF-8 bytes. -/
def encodeURIComponent (s : List Char) : List Char :=
  (s.map fun c =>
    if uriUnreserved c then [c]
    else ((utf8Bytes c).map pctByte).flatten).flatten

/-- Value of a hexadecimal digit character (`0` for non-hex characters). -/
def pctHexVal (c : Char) : Nat :=
  let n := c.toNat
  if 48 ≤ n && n ≤ 57 then n - 48
  else if 65 ≤ n && n ≤ 70 then n - 55
  else if 97 ≤ n && n ≤ 102 then n - 87
  else 0

/-- First phase of `decodeURIComponent`: turn the text into a byte
sequence, reading `%XX` escapes as bytes and any other character as its
UTF-8 bytes. -/
def pctToBytes : List Char → List Nat
  | [] => []
  | c :: rest =>
    if c = '%' then
      match rest with
      | h1 :: h2 :: rest2 => (16 * pctHexVal h1 + pctHexVal h2) :: pctToBytes rest2
      | _ => []
    else utf8Bytes c ++ pctToBytes rest

/-- UTF-8 decoding of a byte sequence (well-formed inputs; decoding is
only ever applied to encoder output in this development, where the
lookahead continuation bytes are always present). -/
def utf8Decode : List Nat → List Char
  | [] => []
  | b :: bs =>
    if b < 0x80 then Char.ofNat b :: utf8Decode bs
    else if b < 0xE0 then
      Char.ofNat ((b - 0xC0) * 64 + (bs.headD 0 - 0x80)) :: utf8Decode (bs.drop 1)
    else if b < 0xF0 then
      Char.ofNat ((b - 0xE0) * 4096 + (bs.headD 0 - 0x80) * 64 +
        ((bs.drop 1).headD 0 - 0x80)) :: utf8Decode (bs.drop 2)
    else
      Char.ofNat ((b - 0xF0) * 262144 + (bs.headD 0 - 0x80) * 4096 +
        ((bs.drop 1).headD 0 - 0x80) * 64 + ((bs.drop 2).headD 0 - 0x80)) ::
        utf8Decode (bs.drop 3)
termination_by l => l.length
decreasing_by
  all_goals simp [List.length_drop]
  all_goals omega

/-- JavaScript `decodeURIComponent` on well-formed input: percent-decode
to bytes, then UTF-8 decode. -/
def decodeURIComponent (s : List Char) : List Char :=
  utf8Decode (pctToBytes s)

/-- Source function `buildDriveDirectDownload` (lines 133-137). -/
def buildDriveDirectDownload (fileId : List Char) : List Char :=
  "https://drive.google.com/uc?export=download&id=".data ++ fileId

/-- Source function `buildDriveDirectView` (lines 139-142). -/
def buildDriveDirectView (fileId : List Char) : List Char :=
  "https://drive.google.com/uc?export=view&id=".data ++ fileId

/-- Source function `buildSlidesExportPptx` (lines 144-147). -/
def buildSlidesExportPptx (fileId : List Char) : List Char :=
  "https://docs.google.com/presentation/d/".data ++ fileId ++ "/export/pptx".data

/-- Source function `buildSlidesEmbed` (lines 149-152). -/
def buildSlidesEmbed (fileId : List Char) : List Char :=
  "https://docs.google.com/presentation/d/".data ++ fileId ++
    "/embed?start=false&loop=false&delayms=3000".data

/-- Source function `buildDocsViewer` (lines 154-157). -/
def buildDocsViewer (urlToFile : List Char) : List Char :=
  "https://docs.google.com/gview?embedded=true&url=".data ++
    encodeURIComponent urlToFile

/-- Source function `buildMicrosoftOfficeViewer` (lines 159-162). -/
def buildMicrosoftOfficeViewer (urlToFile : List Char) : List Char :=
  "https://view.officeapps.live.com/op/embed.aspx?src=".data ++
    encodeURIComponent urlToFile

/-- The `FileType` union of the source. -/
inductive FileType where
  | ppt | pdf | image | video | audio
deriving DecidableEq, BEq, Repr

/-- The `ConvertResult` record of the source; absent optional fields are
`none`. -/
structure ConvertResult where
  fileId : Option (List Char) := none
  exportUrl : Option (List Char) := none
  embedUrl : Option (List Char) := none
  previewUrl : Option (List Char) := none
  notes : Option (List (List Char)) := none
  error : Option (List Char) := none
deriving DecidableEq, Repr

/-- Source function `convertLink` (src/src/LinkConverter.tsx lines 164-322), translated
branch for branch.  The unreachable `default` arm of the source switch
has no counterpart because `FileType` is a closed inductive type. -/
def convertLink (input : List Char) (t : FileType) : ConvertResult :=
  let raw := trimJS input
  if raw.isEmpty then { error := some ("Paste a link first.".data) }
  else
    let google := isProbablyGoogleLink raw
    let fid := if google then extractGoogleFileId raw else none
    if google && fid.isNone then
      { error := some ("This looks like a Google link, but I couldn\x27t extract the file ID. Please paste a full Drive/Docs link.".data) }
    else if !google then
      match t with
      | FileType.ppt =>
        { exportUrl := some raw
        , previewUrl := some (buildMicrosoftOfficeViewer raw)
        , notes := some
            [ "This is not a Google Drive link. Using it as-is.".data
            , "For PPT preview, the URL must be publicly accessible.".data ] }
      | FileType.pdf =>
        { exportUrl := some raw
        , previewUrl := some (buildDocsViewer raw)
        , notes := some
            [ "This is not a Google Drive link. Using it as-is.".data
            , "If the PDF doesn\x27t render, ensure the link is public and allows direct access.".data ] }
      | _ =>
        { exportUrl := some raw
        , previewUrl := some raw
        , notes := some ["This is not a Google Drive link. Using it as-is.".data] }
    else
      let id := fid.getD []
      match t with
      | FileType.ppt =>
        let exportUrl := buildSlidesExportPptx id
        let embedUrl := buildSlidesEmbed id
        { fileId := some id
        , exportUrl := some exportUrl
        , embedUrl := some embedUrl
        , previewUrl := some embedUrl
        , notes := some
            [ "Export URL downloads as PPTX.".data
            , "Preview uses Google Slides embed.".data
            , "If you want PPT-style preview, switch to Microsoft viewer (provided below).".data ] }
      | FileType.pdf =>
        let lower := raw.map Char.toLower
        let exportUrl0 := buildDriveDirectDownload id
        let exportUrl :=
          if containsSub ("docs.google.com/presentation".data) lower then
            "https://docs.google.com/presentation/d/".data ++ id ++ "/export/pdf".data
          else if containsSub ("docs.google.com/document".data) lower then
            "https://docs.google.com/document/d/".data ++ id ++ "/export?format=pdf".data
          else if containsSub ("docs.google.com/spreadsheets".data) lower then
            buildDriveDirectDownload id
          else exportUrl0
        { fileId := some id
        , exportUrl := some exportUrl
        , previewUrl := some (buildDocsViewer exportUrl)
        , notes := some
            [ "Preview uses Google Docs Viewer.".data
            , "Make sure the file is shared publicly (Anyone with the link → Viewer).".data ] }
      | FileType.image =>
        let exportUrl := buildDriveDirectView id
        { fileId := some id
        , exportUrl := some exportUrl
        , previewUrl := some exportUrl
        , notes := some
            [ "This works best when the Drive file is actually an image.".data
            , "If it fails, your file may not be an image or it may not be public.".data ] }
      | FileType.video =>
        let exportUrl := buildDriveDirectDownload id
        { fileId := some id
        , exportUrl := some exportUrl
        , previewUrl := some exportUrl
        , notes := some
            [ "For Drive videos, direct playback depends on CORS and file permissions.".data
            , "If it doesn\x27t play, try hosting on a CDN or use a streaming server.".data ] }
      | FileType.audio =>
        let exportUrl := buildDriveDirectDownload id
        { fileId := some id
        , exportUrl := some exportUrl
        , previewUrl := some exportUrl
        , notes := some
            [ "For Drive audio, direct playback depends on permissions and browser support.".data ] }

/-- The caller-level viewer override of `DriveLinkConverterPage`
(lines 411-425): when the selected type is ppt, the force-Microsoft-viewer
toggle is on and the result carries a truthy `exportUrl`, replace the
preview with the office viewer and append one note. -/
def applyViewerOverride (t : FileType) (forceMsViewer : Bool)
    (r : ConvertResult) : ConvertResult :=
  match r.exportUrl with
  | some e =>
    if (t == FileType.ppt) && forceMsViewer && !e.isEmpty then
      { r with
        previewUrl := some (buildMicrosoftOfficeViewer e)
      , notes := some ((r.notes.getD []) ++ ["Microsoft viewer enabled for preview.".data]) }
    else r
  | none => r

/-- The PDF export URL exactly as claim C1 words it: default to the direct
download, override for presentation links, override for document links,
and keep the direct download for spreadsheets links.  Stated from the
claim, for comparison with `convertLink`. -/
def pdfExportUrlSpec (raw id : List Char) : List Char :=
  let lower := raw.map Char.toLower
  if containsSub ("docs.google.com/presentation".data) lower then
    "https://docs.google.com/presentation/d/".data ++ id ++ "/export/pdf".data
  else if containsSub ("docs.google.com/document".data) lower then
    "https://docs.google.com/document/d/".data ++ id ++ "/export?format=pdf".data
  else if containsSub ("docs.google.com/spreadsheets".data) lower then
    buildDriveDirectDownload id
  else buildDriveDirectDownload id

/-- The identifier extractor as the spec words it: an explicit ordered
first-capture-wins chain over the six patterns.  Stated from the spec,
for comparison with the pattern-loop of `extractGoogleFileId`. -/
def extractSpecOrdered (input : List Char) : Option (List Char) :=
  let url := trimJS input
  if url.isEmpty then none
  else
    match findLitCapture ("/file/d/".data) url with
    | some c => some c
    | none =>
      match findLitCapture ("/presentation/d/".data) url with
      | some c => some c
      | none =>
        match findLitCapture ("/document/d/".data) url with
        | some c => some c
        | none =>
          match findLitCapture ("/spreadsheets/d/".data) url with
          | some c => some c
          | none =>
            match findP5 url with
            | some c => some c
            | none => findLitCapture ("/uc?id=".data) url

/-- The identifier extractor with the sixth (`/uc?id=`) pattern removed,
for claim C9. -/
def extractGoogleFileIdNoUc (input : List Char) : Option (List Char) :=
  let url := trimJS input
  if url.isEmpty then none
  else runPatterns
    [ findLitCapture ("/file/d/".data)
    , findLitCapture ("/presentation/d/".data)
    , findLitCapture ("/document/d/".data)
    , findLitCapture ("/spreadsheets/d/".data)
    , findP5 ] url

lemma extract_nil : extractGoogleFileId ([] : List Char) = none := rfl

lemma trim_nonempty_of_extract {input id : List Char}
    (hid : extractGoogleFileId (trimJS input) = some id) :
    (trimJS input).isEmpty = false := by
  cases hl : trimJS input with
  | nil =>
    rw [hl, extract_nil] at hid
    exact Option.noConfusion hid
  | cons c tl => rfl

lemma isEmpty_append_left {l r : List Char} (h : l.isEmpty = false) :
    (l ++ r).isEmpty = false := by
  cases l with
  | nil => simp at h
  | cons c tl => rfl

end LinkConverter

namespace LinkConverter

/-- C10: Google-hostedness is decided case-insensitively while identifier
extraction is case-sensitive, so an all-uppercase Slides link is
classified Google-hosted, yields no identifier, and produces the
malformed-Google-link error for every media type. -/
theorem uppercase_google_link_error (t : FileType) :
    isProbablyGoogleLink ("https://DOCS.GOOGLE.COM/PRESENTATION/D/abc123/edit".data) = true ∧
    extractGoogleFileId ("https://DOCS.GOOGLE.COM/PRESENTATION/D/abc123/edit".data) = none ∧
    convertLink ("https://DOCS.GOOGLE.COM/PRESENTATION/D/abc123/edit".data) t =
      { error := some ("This looks like a Google link, but I couldn\x27t extract the file ID. Please paste a full Drive/Docs link.".data) } := by
  refine ⟨by decide, by decide, ?_⟩
  cases t <;> decide

/-- C4 counterexample: a padded non-Google input is error-free but is not
returned verbatim, because `convertLink` trims it first; so the claimed
identity `resolve(U, image).exportUrl = U` fails at `U = " http://example.com/a.png "`. -/
theorem nonGoogle_identity_counterexample :
    isProbablyGoogleLink (" http://example.com/a.png ".data) = false ∧
    (convertLink (" http://example.com/a.png ".data) FileType.image).error = none ∧
    (convertLink (" http://example.com/a.png ".data) FileType.image).exportUrl ≠
      some (" http://example.com/a.png ".data) := by
  decide

/-- C4 amended: for an input whose trimmed form is nonempty and that is
not classified as a Google link, every media type in {image, video,
audio} passes the TRIMMED input through unchanged as both export and
preview URL, with no error. -/
theorem nonGoogle_media_passthrough (u : List Char) (t : FileType)
    (hne : (trimJS u).isEmpty = false)
    (hg : isProbablyGoogleLink (trimJS u) = false)
    (ht : t = FileType.image ∨ t = FileType.video ∨ t = FileType.audio) :
    (convertLink u t).exportUrl = some (trimJS u) ∧
    (convertLink u t).previewUrl = some (trimJS u) ∧
    (convertLink u t).error = none := by
  rcases ht with h | h | h <;> subst h <;> simp [convertLink, hne, hg]

theorem nonGoogle_media_passthrough_witness :
    (convertLink ("http://example.com/a.png".data) FileType.image).exportUrl =
      some (trimJS ("http://example.com/a.png".data)) ∧
    (convertLink ("http://example.com/a.png".data) FileType.image).previewUrl =
      some (trimJS ("http://example.com/a.png".data)) ∧
    (convertLink ("http://example.com/a.png".data) FileType.image).error = none :=
  nonGoogle_media_passthrough _ _ (by decide) (by decide) (Or.inl rfl)

/-- C5: `convertLink` is total and reports failures as data: empty
trimmed input yields the paste-first error; a Google-classified input
with no extractable identifier yields the malformed-Google-link error
record (so it never reaches the direct-URL branch); in every other case
the error field is absent. -/
theorem convert_error_cases (input : List Char) (t : FileType) :
    ((trimJS input).isEmpty = true →
      convertLink input t = { error := some ("Paste a link first.".data) }) ∧
    ((trimJS input).isEmpty = false →
      isProbablyGoogleLink (trimJS input) = true →
      extractGoogleFileId (trimJS input) = none →
      convertLink input t =
        { error := some ("This looks like a Google link, but I couldn\x27t extract the file ID. Please paste a full Drive/Docs link.".data) }) ∧
    ((trimJS input).isEmpty = false →
      (isProbablyGoogleLink (trimJS input) = false ∨
        extractGoogleFileId (trimJS input) ≠ none) →
      (convertLink input t).error = none) := by
  refine ⟨?_, ?_, ?_⟩
  · intro h
    simp [convertLink, h]
  · intro h1 h2 h3
    simp [convertLink, h1, h2, h3]
  · intro h1 h2
    rcases h2 with h2 | h2
    · cases t <;> simp [convertLink, h1, h2]
    · cases hfe : extractGoogleFileId (trimJS input) with
      | none => exact absurd hfe h2
      | some id =>
        by_cases hg : isProbablyGoogleLink (trimJS input) = true
        · cases t <;> simp [convertLink, h1, hg, hfe]
        · have hg' : isProbablyGoogleLink (trimJS input) = false := by
            simpa using hg
          cases t <;> simp [convertLink, h1, hg']

theorem convert_error_cases_witness :
    convertLink ("   ".data) FileType.pdf = { error := some ("Paste a link first.".data) } :=
  (convert_error_cases ("   ".data) FileType.pdf).1 (by decide)

/-- C6: the result invariants: an error result carries neither export nor
preview URL, and a Google-classified input that returns without error
always carries a file identifier. -/
theorem convert_result_invariants (input : List Char) (t : FileType) :
    ((convertLink input t).error.isSome = true →
      (convertLink input t).exportUrl = none ∧
      (convertLink input t).previewUrl = none) ∧
    (isProbablyGoogleLink (trimJS input) = true →
      (convertLink input t).error = none →
      (convertLink input t).fileId.isSome = true) := by
  by_cases h1 : (trimJS input).isEmpty = true
  · simp [convertLink, h1]
  · have h1' : (trimJS input).isEmpty = false := by simpa using h1
    by_cases hg : isProbablyGoogleLink (trimJS input) = true
    · cases hfe : extractGoogleFileId (trimJS input) with
      | none => simp [convertLink, h1', hg, hfe]
      | some id => cases t <;> simp [convertLink, h1', hg, hfe]
    · have hg' : isProbablyGoogleLink (trimJS input) = false := by simpa using hg
      cases t <;> simp [convertLink, h1', hg']

theorem convert_result_invariants_witness :
    (convertLink ("https://drive.google.com/weird/no-id-here".data) FileType.image).exportUrl = none ∧
    (convertLink ("https://drive.google.com/weird/no-id-here".data) FileType.image).previewUrl = none :=
  (convert_result_invariants ("https://drive.google.com/weird/no-id-here".data) FileType.image).1 (by decide)

/-- C1: in the Google pdf branch the export URL is the direct download by
default, overridden by the Slides pdf export when the lowercased raw
input mentions `docs.google.com/presentation`, by the Document pdf export
when it mentions `docs.google.com/document`, and left as the direct
download for `docs.google.com/spreadsheets`; the preview URL is always
the generic document viewer applied to that final export URL. -/
theorem pdf_export_override_and_preview (input id : List Char)
    (hg : isProbablyGoogleLink (trimJS input) = true)
    (hid : extractGoogleFileId (trimJS input) = some id) :
    (convertLink input FileType.pdf).exportUrl =
      some (pdfExportUrlSpec (trimJS input) id) ∧
    (convertLink input FileType.pdf).previewUrl =
      some (buildDocsViewer (pdfExportUrlSpec (trimJS input) id)) := by
  have hne := trim_nonempty_of_extract hid
  simp [convertLink, pdfExportUrlSpec, hne, hg, hid]

theorem pdf_export_override_and_preview_witness :
    (convertLink ("https://docs.google.com/spreadsheets/d/abc123/edit".data) FileType.pdf).exportUrl =
      some (pdfExportUrlSpec (trimJS ("https://docs.google.com/spreadsheets/d/abc123/edit".data)) ("abc123".data)) ∧
    (convertLink ("https://docs.google.com/spreadsheets/d/abc123/edit".data) FileType.pdf).previewUrl =
      some (buildDocsViewer (pdfExportUrlSpec (trimJS ("https://docs.google.com/spreadsheets/d/abc123/edit".data)) ("abc123".data))) :=
  pdf_export_override_and_preview _ _ (by decide) (by decide)

/-- C3: in the Google ppt branch the export URL is the Slides pptx export
and the preview URL equals the embed URL, the Slides embed endpoint; the
office viewer is never auto-selected here. -/
theorem ppt_google_export_embed_preview (input id : List Char)
    (hg : isProbablyGoogleLink (trimJS input) = true)
    (hid : extractGoogleFileId (trimJS input) = some id) :
    (convertLink input FileType.ppt).exportUrl =
      some ("https://docs.google.com/presentation/d/".data ++ id ++ "/export/pptx".data) ∧
    (convertLink input FileType.ppt).embedUrl =
      some ("https://docs.google.com/presentation/d/".data ++ id ++
        "/embed?start=false&loop=false&delayms=3000".data) ∧
    (convertLink input FileType.ppt).previewUrl =
      (convertLink input FileType.ppt).embedUrl := by
  have hne := trim_nonempty_of_extract hid
  simp [convertLink, buildSlidesExportPptx, buildSlidesEmbed, hne, hg, hid]

theorem ppt_google_export_embed_preview_witness :
    (convertLink ("https://docs.google.com/presentation/d/abc123/edit".data) FileType.ppt).exportUrl =
      some ("https://docs.google.com/presentation/d/".data ++ ("abc123".data) ++ "/export/pptx".data) ∧
    (convertLink ("https://docs.google.com/presentation/d/abc123/edit".data) FileType.ppt).embedUrl =
      some ("https://docs.google.com/presentation/d/".data ++ ("abc123".data) ++
        "/embed?start=false&loop=false&delayms=3000".data) ∧
    (convertLink ("https://docs.google.com/presentation/d/abc123/edit".data) FileType.ppt).previewUrl =
      (convertLink ("https://docs.google.com/presentation/d/abc123/edit".data) FileType.ppt).embedUrl :=
  ppt_google_export_embed_preview _ _ (by decide) (by decide)

/-- C7: whenever the ppt result carries an export URL, the caller-level
force-Microsoft-viewer override replaces the preview with the office
viewer around that export URL and appends exactly one note, leaving
export URL, embed URL, file id and error untouched. -/
theorem ppt_force_viewer_override (input e : List Char)
    (he : (convertLink input FileType.ppt).exportUrl = some e) :
    (applyViewerOverride FileType.ppt true (convertLink input FileType.ppt)).previewUrl
      = some (buildMicrosoftOfficeViewer e) ∧
    (applyViewerOverride FileType.ppt true (convertLink input FileType.ppt)).notes
      = some (((convertLink input FileType.ppt).notes.getD []) ++
          ["Microsoft viewer enabled for preview.".data]) ∧
    (applyViewerOverride FileType.ppt true (convertLink input FileType.ppt)).exportUrl
      = (convertLink input FileType.ppt).exportUrl ∧
    (applyViewerOverride FileType.ppt true (convertLink input FileType.ppt)).embedUrl
      = (convertLink input FileType.ppt).embedUrl ∧
    (applyViewerOverride FileType.ppt true (convertLink input FileType.ppt)).fileId
      = (convertLink input FileType.ppt).fileId ∧
    (applyViewerOverride FileType.ppt true (convertLink input FileType.ppt)).error
      = (convertLink input FileType.ppt).error := by
  have hne : e.isEmpty = false := by
    by_cases h1 : (trimJS input).isEmpty = true
    · simp [convertLink, h1] at he
    · have h1' : (trimJS input).isEmpty = false := by simpa using h1
      by_cases hg : isProbablyGoogleLink (trimJS input) = true
      · cases hfe : extractGoogleFileId (trimJS input) with
        | none => simp [convertLink, h1', hg, hfe] at he
        | some id =>
          simp [convertLink, buildSlidesExportPptx, h1', hg, hfe] at he
          rw [← he]
          rfl
      · have hg' : isProbablyGoogleLink (trimJS input) = false := by simpa using hg
        simp [convertLink, h1', hg'] at he
        rw [← he]
        exact h1'
  simp [applyViewerOverride, he, hne,
    show (FileType.ppt == FileType.ppt) = true from rfl]

theorem ppt_force_viewer_override_witness :
    (applyViewerOverride FileType.ppt true
        (convertLink ("https://docs.google.com/presentation/d/abc123/edit".data) FileType.ppt)).previewUrl
      = some (buildMicrosoftOfficeViewer
          ("https://docs.google.com/presentation/d/abc123/export/pptx".data)) ∧
    (applyViewerOverride FileType.ppt true
        (convertLink ("https://docs.google.com/presentation/d/abc123/edit".data) FileType.ppt)).exportUrl
      = (convertLink ("https://docs.google.com/presentation/d/abc123/edit".data) FileType.ppt).exportUrl :=
  have h := ppt_force_viewer_override ("https://docs.google.com/presentation/d/abc123/edit".data)
    ("https://docs.google.com/presentation/d/abc123/export/pptx".data) (by decide)
  ⟨h.1, h.2.2.1⟩

lemma takeIdRun_all (l : List Char) : (takeIdRun l).all idChar = true := by
  induction l with
  | nil => rfl
  | cons c tl ih =>
    rw [takeIdRun]
    by_cases h : idChar c = true
    · rw [if_pos h]
      simp [h, ih]
    · rw [if_neg h]
      rfl

lemma findLitCapture_spec {pre s cap : List Char}
    (h : findLitCapture pre s = some cap) :
    cap ≠ [] ∧ cap.all idChar = true := by
  induction s with
  | nil => exact Option.noConfusion h
  | cons c tl ih =>
    rw [findLitCapture] at h
    split at h
    · rename_i hguard
      simp only [Bool.and_eq_true] at hguard
      obtain ⟨_, hcap⟩ := hguard
      injection h with h
      subst h
      refine ⟨?_, takeIdRun_all _⟩
      intro hnil
      rw [hnil] at hcap
      simp at hcap
    · exact ih h

lemma findP5_spec {s cap : List Char} (h : findP5 s = some cap) :
    cap ≠ [] ∧ cap.all idChar = true := by
  induction s with
  | nil => exact Option.noConfusion h
  | cons c tl ih =>
    rw [findP5] at h
    split at h
    · rename_i hguard
      simp only [Bool.and_eq_true] at hguard
      obtain ⟨_, hcap⟩ := hguard
      injection h with h
      subst h
      refine ⟨?_, takeIdRun_all _⟩
      intro hnil
      rw [hnil] at hcap
      simp at hcap
    · exact ih h

lemma runPatterns_spec {ps : List (List Char → Option (List Char))}
    {url cap : List Char}
    (hall : ∀ p ∈ ps, ∀ c, p url = some c → c ≠ [] ∧ c.all idChar = true)
    (h : runPatterns ps url = some cap) :
    cap ≠ [] ∧ cap.all idChar = true := by
  induction ps with
  | nil => exact Option.noConfusion h
  | cons p rest ih =>
    rw [runPatterns] at h
    cases hp : p url with
    | some c =>
      rw [hp] at h
      injection h with h
      subst h
      exact hall p (List.mem_cons_self _ _) _ hp
    | none =>
      rw [hp] at h
      exact ih (fun q hq c hc => hall q (List.mem_cons_of_mem _ hq) c hc) h

lemma extract_charset {input id : List Char}
    (hid : extractGoogleFileId input = some id) :
    id ≠ [] ∧ id.all idChar = true := by
  simp only [extractGoogleFileId] at hid
  by_cases he : (trimJS input).isEmpty = true
  · rw [if_pos he] at hid
    exact Option.noConfusion hid
  · rw [if_neg he] at hid
    refine runPatterns_spec ?_ hid
    intro p hp c hc
    simp only [googleIdPatterns, List.mem_cons, List.not_mem_nil, or_false] at hp
    rcases hp with rfl | rfl | rfl | rfl | rfl | rfl
    · exact findLitCapture_spec hc
    · exact findLitCapture_spec hc
    · exact findLitCapture_spec hc
    · exact findLitCapture_spec hc
    · exact findP5_spec hc
    · exact findLitCapture_spec hc

lemma extract_eq_spec (s : List Char) :
    extractGoogleFileId s = extractSpecOrdered s := by
  simp only [extractGoogleFileId, extractSpecOrdered, googleIdPatterns]
  by_cases he : (trimJS s).isEmpty = true
  · rw [if_pos he, if_pos he]
  · rw [if_neg he, if_neg he]
    cases h1 : findLitCapture ("/file/d/".data) (trimJS s) with
    | some c => simp [runPatterns, h1]
    | none =>
      cases h2 : findLitCapture ("/presentation/d/".data) (trimJS s) with
      | some c => simp [runPatterns, h1, h2]
      | none =>
        cases h3 : findLitCapture ("/document/d/".data) (trimJS s) with
        | some c => simp [runPatterns, h1, h2, h3]
        | none =>
          cases h4 : findLitCapture ("/spreadsheets/d/".data) (trimJS s) with
          | some c => simp [runPatterns, h1, h2, h3, h4]
          | none =>
            cases h5 : findP5 (trimJS s) with
            | some c => simp [runPatterns, h1, h2, h3, h4, h5]
            | none =>
              cases h6 : findLitCapture ("/uc?id=".data) (trimJS s) with
              | some c => simp [runPatterns, h1, h2, h3, h4, h5, h6]
              | none => simp [runPatterns, h1, h2, h3, h4, h5, h6]

/-- C2: identifier extraction is the ordered first-capture-wins chain over
the six patterns (stated by equality with the spec-worded chain
`extractSpecOrdered`), every extracted identifier is a nonempty run of
`[a-zA-Z0-9_-]` characters, and the documented concrete example
classifies as Google-hosted with the expected file id. -/
theorem extract_ordered_first_match (input id : List Char)
    (hid : extractGoogleFileId input = some id) :
    (∀ s, extractGoogleFileId s = extractSpecOrdered s) ∧
    id ≠ [] ∧ id.all idChar = true ∧
    isProbablyGoogleLink ("https://docs.google.com/presentation/d/1KocQY1Q3rQfZGl8BTNSG8fEqGh-XpUq0/edit?usp=drive_link".data) = true ∧
    extractGoogleFileId ("https://docs.google.com/presentation/d/1KocQY1Q3rQfZGl8BTNSG8fEqGh-XpUq0/edit?usp=drive_link".data) =
      some ("1KocQY1Q3rQfZGl8BTNSG8fEqGh-XpUq0".data) := by
  obtain ⟨h1, h2⟩ := extract_charset hid
  exact ⟨extract_eq_spec, h1, h2, by decide, by decide⟩

theorem extract_ordered_first_match_witness :
    extractGoogleFileId ("https://drive.google.com/file/d/XYZ_1/view".data) =
      extractSpecOrdered ("https://drive.google.com/file/d/XYZ_1/view".data) :=
  (extract_ordered_first_match ("https://drive.google.com/file/d/XYZ_1/view".data)
    ("XYZ_1".data) (by decide)).1 ("https://drive.google.com/file/d/XYZ_1/view".data)

lemma startsWith_iff_append {p s : List Char} :
    startsWith p s = true ↔ ∃ r, s = p ++ r := by
  induction p generalizing s with
  | nil => simp [startsWith]
  | cons a p ih =>
    cases s with
    | nil => simp [startsWith]
    | cons b s' =>
      simp only [startsWith, Bool.and_eq_true, beq_iff_eq, ih,
        List.cons_append, List.cons.injEq]
      constructor
      · rintro ⟨hab, r, hr⟩
        exact ⟨r, hab.symm, hr⟩
      · rintro ⟨r, hb, hr⟩
        exact ⟨hb.symm, r, hr⟩

lemma findP5_none_imp_uc_none {s : List Char} (h : findP5 s = none) :
    findLitCapture ("/uc?id=".data) s = none := by
  induction s with
  | nil => rfl
  | cons c tl ih =>
    rw [findP5] at h
    split at h
    · exact Option.noConfusion h
    · rw [findLitCapture]
      by_cases hg : (startsWith ("/uc?id=".data) (c :: tl) &&
          !(takeIdRun (List.drop ("/uc?id=".data).length (c :: tl))).isEmpty) = true
      · exfalso
        simp only [Bool.and_eq_true] at hg
        obtain ⟨hsw, hcap⟩ := hg
        rcases startsWith_iff_append.mp hsw with ⟨rest, hrest⟩
        rw [hrest, List.drop_left] at hcap
        have hcap' : (takeIdRun rest).isEmpty = false := by
          simpa using hcap
        simp only [show ("/uc?id=".data : List Char) = ['/', 'u', 'c', '?', 'i', 'd', '='] from rfl,
          List.cons_append, List.nil_append] at hrest
        injection hrest with hc htl
        subst htl
        rw [findP5, if_neg (by
          simp [show ('u' == '?') = false from rfl,
            show ('u' == '&') = false from rfl])] at h
        rw [findP5, if_neg (by
          simp [show ('c' == '?') = false from rfl,
            show ('c' == '&') = false from rfl])] at h
        have hcond : (('?' == '?' || '?' == '&') &&
            startsWith ("id=".data) ('i' :: 'd' :: '=' :: rest) &&
            !(takeIdRun (List.drop 3 ('i' :: 'd' :: '=' :: rest))).isEmpty) = true := by
          rw [show List.drop 3 ('i' :: 'd' :: '=' :: (rest : List Char)) = rest from rfl,
            hcap']
          simp [startsWith, show ("id=".data : List Char) = ['i', 'd', '='] from rfl]
        rw [findP5, if_pos hcond] at h
        exact Option.noConfusion h
      · rw [if_neg hg]
        exact ih h

/-- C9: removing the sixth (`/uc?id=`) pattern never changes the
extraction result, because the generic `[?&]id=` pattern already matches
wherever `/uc?id=` would. -/
theorem uc_pattern_redundant (input : List Char) :
    extractGoogleFileId input = extractGoogleFileIdNoUc input := by
  simp only [extractGoogleFileId, extractGoogleFileIdNoUc, googleIdPatterns]
  by_cases he : (trimJS input).isEmpty = true
  · rw [if_pos he, if_pos he]
  · rw [if_neg he, if_neg he]
    cases h1 : findLitCapture ("/file/d/".data) (trimJS input) with
    | some c => simp [runPatterns, h1]
    | none =>
      cases h2 : findLitCapture ("/presentation/d/".data) (trimJS input) with
      | some c => simp [runPatterns, h1, h2]
      | none =>
        cases h3 : findLitCapture ("/document/d/".data) (trimJS input) with
        | some c => simp [runPatterns, h1, h2, h3]
        | none =>
          cases h4 : findLitCapture ("/spreadsheets/d/".data) (trimJS input) with
          | some c => simp [runPatterns, h1, h2, h3, h4]
          | none =>
            cases h5 : findP5 (trimJS input) with
            | some c => simp [runPatterns, h1, h2, h3, h4, h5]
            | none =>
              have h6 := findP5_none_imp_uc_none h5
              simp [runPatterns, h1, h2, h3, h4, h5, h6]

lemma char_toNat_lt (c : Char) : c.toNat < 0x110000 := by
  have h : c.toNat < 0xD800 ∨ (0xE000 ≤ c.toNat ∧ c.toNat < 0x110000) := c.valid
  rcases h with h | ⟨_, h⟩ <;> omega

lemma utf8Bytes_lt {c : Char} {b : Nat} (hb : b ∈ utf8Bytes c) : b < 256 := by
  have hlt := char_toNat_lt c
  rw [utf8Bytes] at hb
  split at hb
  · simp only [List.mem_singleton] at hb
    omega
  · split at hb
    · simp only [List.mem_cons, List.not_mem_nil, or_false] at hb
      rcases hb with rfl | rfl <;> omega
    · split at hb
      · simp only [List.mem_cons, List.not_mem_nil, or_false] at hb
        rcases hb with rfl | rfl | rfl <;> omega
      · simp only [List.mem_cons, List.not_mem_nil, or_false] at hb
        rcases hb with rfl | rfl | rfl | rfl <;> omega

lemma pctHexVal_hexDigit : ∀ n, n < 16 → pctHexVal (hexDigit n) = n := by decide

lemma pctToBytes_pctByte (b : Nat) (hb : b < 256) (rest : List Char) :
    pctToBytes (pctByte b ++ rest) = b :: pctToBytes rest := by
  have h1 : b / 16 < 16 := by omega
  have h2 : b % 16 < 16 := by omega
  show pctToBytes ('%' :: hexDigit (b / 16) :: hexDigit (b % 16) :: rest) = _
  conv_lhs => rw [pctToBytes.eq_def]
  dsimp only
  rw [if_pos rfl]
  show (16 * pctHexVal (hexDigit (b / 16)) + pctHexVal (hexDigit (b % 16)))
      :: pctToBytes rest = _
  rw [pctHexVal_hexDigit _ h1, pctHexVal_hexDigit _ h2,
    show 16 * (b / 16) + b % 16 = b by omega]

lemma pctToBytes_cons_nonpct (c : Char) (rest : List Char) (h : c ≠ '%') :
    pctToBytes (c :: rest) = utf8Bytes c ++ pctToBytes rest := by
  conv_lhs => rw [pctToBytes.eq_def]
  dsimp only
  rw [if_neg h]

lemma pctToBytes_escaped (bs : List Nat) (hb : ∀ b ∈ bs, b < 256)
    (rest : List Char) :
    pctToBytes ((bs.map pctByte).flatten ++ rest) = bs ++ pctToBytes rest := by
  induction bs with
  | nil => rfl
  | cons b bs ih =>
    rw [List.map_cons, List.flatten_cons, List.append_assoc,
      pctToBytes_pctByte b (hb b (List.mem_cons_self _ _)),
      ih (fun x hx => hb x (List.mem_cons_of_mem _ hx)), List.cons_append]

lemma uriUnreserved_ne_pct {c : Char} (h : uriUnreserved c = true) : c ≠ '%' := by
  intro hc
  rw [hc] at h
  exact absurd h (by decide)

lemma pctToBytes_encode (u : List Char) :
    pctToBytes (encodeURIComponent u) = (u.map utf8Bytes).flatten := by
  induction u with
  | nil => rfl
  | cons c u ih =>
    have henc : encodeURIComponent (c :: u) =
        (if uriUnreserved c then [c] else ((utf8Bytes c).map pctByte).flatten)
          ++ encodeURIComponent u := rfl
    rw [henc, List.map_cons, List.flatten_cons]
    by_cases h : uriUnreserved c = true
    · rw [if_pos h, List.singleton_append,
        pctToBytes_cons_nonpct _ _ (uriUnreserved_ne_pct h), ih]
    · rw [if_neg h, pctToBytes_escaped _ (fun b hb => utf8Bytes_lt hb), ih]

lemma utf8Decode_utf8Bytes (c : Char) (rest : List Nat) :
    utf8Decode (utf8Bytes c ++ rest) = c :: utf8Decode rest := by
  have hlt : c.toNat < 0x110000 := char_toNat_lt c
  rw [utf8Bytes]
  by_cases h1 : c.toNat < 0x80
  · rw [if_pos h1, List.singleton_append, utf8Decode, if_pos h1,
      Char.ofNat_toNat]
  · rw [if_neg h1]
    by_cases h2 : c.toNat < 0x800
    · rw [if_pos h2]
      simp only [List.cons_append, List.nil_append]
      rw [utf8Decode, if_neg (by omega), if_pos (by omega)]
      simp only [List.headD_cons, List.drop_succ_cons, List.drop_zero]
      rw [show (0xC0 + c.toNat / 64 - 0xC0) * 64 + (0x80 + c.toNat % 64 - 0x80)
          = c.toNat by omega, Char.ofNat_toNat]
    · rw [if_neg h2]
      by_cases h3 : c.toNat < 0x10000
      · rw [if_pos h3]
        simp only [List.cons_append, List.nil_append]
        rw [utf8Decode, if_neg (by omega), if_neg (by omega), if_pos (by omega)]
        simp only [List.headD_cons, List.drop_succ_cons, List.drop_zero]
        rw [show (0xE0 + c.toNat / 4096 - 0xE0) * 4096 +
            (0x80 + c.toNat / 64 % 64 - 0x80) * 64 +
            (0x80 + c.toNat % 64 - 0x80) = c.toNat by omega, Char.ofNat_toNat]
      · rw [if_neg h3]
        simp only [List.cons_append, List.nil_append]
        rw [utf8Decode, if_neg (by omega), if_neg (by omega), if_neg (by omega)]
        simp only [List.headD_cons, List.drop_succ_cons, List.drop_zero]
        rw [show (0xF0 + c.toNat / 262144 - 0xF0) * 262144 +
            (0x80 + c.toNat / 4096 % 64 - 0x80) * 4096 +
            (0x80 + c.toNat / 64 % 64 - 0x80) * 64 +
            (0x80 + c.toNat % 64 - 0x80) = c.toNat by omega, Char.ofNat_toNat]

lemma utf8Decode_flatten (u : List Char) :
    utf8Decode ((u.map utf8Bytes).flatten) = u := by
  induction u with
  | nil => simp [utf8Decode]
  | cons c u ih =>
    rw [List.map_cons, List.flatten_cons, utf8Decode_utf8Bytes, ih]

lemma decode_encode (u : List Char) :
    decodeURIComponent (encodeURIComponent u) = u := by
  rw [decodeURIComponent, pctToBytes_encode, utf8Decode_flatten]

/-- C8: percent-decoding the `url=` (resp. `src=`) query parameter of the
generic document viewer and of the office viewer wrapper reproduces the
wrapped URL exactly. -/
theorem viewer_url_roundtrip (u : List Char) :
    decodeURIComponent (List.drop
      (("https://docs.google.com/gview?embedded=true&url=".data).length)
      (buildDocsViewer u)) = u ∧
    decodeURIComponent (List.drop
      (("https://view.officeapps.live.com/op/embed.aspx?src=".data).length)
      (buildMicrosoftOfficeViewer u)) = u := by
  constructor
  · rw [buildDocsViewer, List.drop_left, decode_encode]
  · rw [buildMicrosoftOfficeViewer, List.drop_left, decode_encode]

end LinkConverter
